import Mathlib

/-!
Shallow embedding of `src/dist/main.js` (discordjs/action-eslint).

The program has two parts: `lint` turns an ESLint engine report into a
check-run payload (conclusion, summary, per-message check annotations),
and `run` selects which files to lint (pull-request diff vs. push commit),
drives the check-run API, and handles errors. Network collaborators (the
GitHub API client, the ESLint engine) are opaque: their results enter the
embedding as explicit arguments, with `Except` for calls that may throw.

JavaScript conventions modelled explicitly:
  * `undefined`/`null` become `Option`, and the truthiness tests the code
    performs (`x || y`, `cond ? a : b`) are translated per value class:
    a JS array is always truthy (even `[]`), a string is truthy iff
    non-empty, a number is truthy iff non-zero.
  * Array index out of range yields `undefined`, hence `List.get?`.
-/

namespace ActionEslint

def ACTION_NAME : String := "ESLint"

def EXTENSIONS : List String := [".ts", ".js"]

/-- Test that `needle` occurs contiguously inside `hay` at position `i`
(the first `needle.length` characters of `hay.drop i` are `needle`). -/
def chunkAt (needle hay : List Char) (i : Nat) : Bool :=
  decide ((hay.drop i).take needle.length = needle)

/-- Model of JavaScript `hay.includes(needle)`: the substring occurs
somewhere in `hay`. -/
def includes (hay needle : String) : Bool :=
  (List.range (hay.toList.length + 1)).any (chunkAt needle.toList hay.toList)

/-- The basename of a path: the part after the last `/`, with trailing
slashes stripped first (as Node's path parsing does). Computed from the
end of the character list: skip trailing slashes, then take up to the
next slash. -/
def basename (p : String) : String :=
  String.mk (((p.toList.reverse.dropWhile (fun c => c = '/')).takeWhile
    (fun c => c ≠ '/')).reverse)

/-- Index of the last `.` in a character list, if any. -/
def lastDot (l : List Char) : Option Nat :=
  ((List.range l.length).filter (fun i => l.get? i = some '.')).getLast?

/-- Model of Node `path.extname` (an external library function): the part
of the basename from its last dot onward, except that a dot in first
position (dotfiles such as `.bashrc`) and the basename `..` give the
empty string. -/
def extname (p : String) : String :=
  let b := basename p
  if b = ".." then ""
  else
    match lastDot b.toList with
    | none => ""
    | some i => if i = 0 then "" else String.mk (b.toList.drop i)

/-- One ESLint finding, as destructured in `lint`
(`const { line, endLine, column, endColumn, severity, ruleId, message } = msg`).
Fields the engine may omit or null out are `Option`. -/
structure LintMessage where
  line : Nat
  endLine : Option Nat
  column : Nat
  endColumn : Option Nat
  severity : Nat
  ruleId : Option String
  message : String

/-- One per-file result of the engine report. -/
structure LintResult where
  filePath : String
  messages : List LintMessage

/-- The engine report returned by `cli.executeOnFiles`
(`const { results, errorCount, warningCount } = report`). -/
structure EngineReport where
  results : List LintResult
  errorCount : Nat
  warningCount : Nat

/-- A check-run annotation as pushed in `lint` (source type
`ChecksUpdateParamsOutputAnnotations`; the object literal built per
message). `annotation_level` is `Option` because `levels[severity]` is
`undefined` for an out-of-range severity. -/
structure Annot where
  path : String
  start_line : Nat
  end_line : Nat
  start_column : Nat
  end_column : Nat
  annotation_level : Option String
  title : String
  message : String

/-- The `output` object of the returned check-run payload. -/
structure Output where
  title : String
  summary : String
  annotations : List Annot

/-- The value `lint` returns: `{ conclusion, output }`. -/
structure Report where
  conclusion : String
  output : Output

/-- Source: `const levels = ['notice', 'warning', 'failure']`. -/
def levels : List String := ["notice", "warning", "failure"]

/-- Source: `const consoleLevels = [, 'warning', 'error']` — a sparse JS array
whose element 0 is a hole, i.e. `undefined`. -/
def consoleLevels : List (Option String) := [none, some "warning", some "error"]

/-- Lookup `levels[severity]` (out-of-range access yields `undefined`). -/
def annotLevelOf (severity : Nat) : Option String :=
  levels.get? severity

/-- Lookup `consoleLevels[severity]`: a hole or an out-of-range access both read
as `undefined`. -/
def consoleLevelOf (severity : Nat) : Option String :=
  (consoleLevels.get? severity).join

/-- JS `a || b` for numbers: `a` when defined and non-zero, else `b`
(`0` and `undefined` are both falsy). Models `endLine || line` and
`endColumn || column`. -/
def jsOrNat (a : Option Nat) (b : Nat) : Nat :=
  match a with
  | none => b
  | some v => if v = 0 then b else v

/-- JS `a || b` for strings: `a` when defined and non-empty, else `b`
(`''`, `null` and `undefined` are falsy). Models `ruleId || ACTION_NAME`. -/
def jsOrStr (a : Option String) (b : String) : String :=
  match a with
  | none => b
  | some s => if s = "" then b else s

/-- The message text of an annotation:
`` `${message}${ruleId ? `\nhttps://eslint.org/docs/rules/${ruleId}` : ''}` ``. -/
def annotMessage (msg : LintMessage) : String :=
  msg.message ++
    (match msg.ruleId with
     | none => ""
     | some r => if r = "" then "" else "\n" ++ "https://eslint.org/docs/rules/" ++ r)

/-- The annotation object pushed for one message inside `lint`'s loop,
given the workspace-relative `path` of the file. -/
def buildAnnot (path : String) (msg : LintMessage) : Annot :=
  { path := path
    start_line := msg.line
    end_line := jsOrNat msg.endLine msg.line
    start_column := msg.column
    end_column := jsOrNat msg.endColumn msg.column
    annotation_level := annotLevelOf msg.severity
    title := jsOrStr msg.ruleId ACTION_NAME
    message := annotMessage msg }

/-- Interpolation of a possibly-`undefined` string into a JS template
literal: `undefined` prints as the text `undefined`. -/
def jsShow (o : Option String) : String :=
  o.getD "undefined"

/-- Interpolation of ESLint's `ruleId` (a `string | null`) into a
template literal: `null` prints as the text `null`. -/
def jsShowRuleId (o : Option String) : String :=
  o.getD "null"

/-- The console output line pushed for one message:
`` `##[${consoleLevel}]  ${line}:${column}  ${consoleLevel}  ${message}  ${ruleId}\n\n` ``. -/
def consoleLine (msg : LintMessage) : String :=
  "##[" ++ jsShow (consoleLevelOf msg.severity) ++ "]  " ++
    toString msg.line ++ ":" ++ toString msg.column ++ "  " ++
    jsShow (consoleLevelOf msg.severity) ++ "  " ++ msg.message ++ "  " ++
    jsShowRuleId msg.ruleId ++ "\n\n"

/-- Source: `filePath.substring(GITHUB_WORKSPACE.length + 1)` — the file path made
relative to the workspace root, given the workspace root's length. -/
def relPath (workspaceLen : Nat) (filePath : String) : String :=
  filePath.drop (workspaceLen + 1)

/-- The pure core of `lint`: from the engine report and the workspace-root
length, the returned `{ conclusion, output }` payload. Annotations are
collected in file order and, within a file, message order. -/
def lint (workspaceLen : Nat) (engine : EngineReport) : Report :=
  let annotations :=
    engine.results.flatMap (fun res =>
      res.messages.map (buildAnnot (relPath workspaceLen res.filePath)))
  { conclusion := if engine.errorCount > 0 then "failure" else "success"
    output :=
      { title := ACTION_NAME
        summary := toString engine.errorCount ++ " error(s), " ++
          toString engine.warningCount ++ " warning(s) found"
        annotations := annotations } }

/-- A file node of the pull-request GraphQL result
(`info.repository.pullRequest.files.nodes`). -/
structure PRFile where
  path : String

/-- What `run` extracts from a successful pull-request metadata query:
the changed-file nodes and the head commit oid
(`info.repository.pullRequest.commits.nodes[0].commit.oid`). -/
structure PRInfo where
  files : List PRFile
  headSha : String

/-- One entry of `info.data.files` from the push-commit REST query. -/
structure CommitFile where
  filename : String
  status : String

/-- The pull-request branch's filter predicate:
`EXTENSIONS.has(extname(file.path)) && !file.path.includes('.d.ts')`. -/
def prFileKeep (path : String) : Bool :=
  EXTENSIONS.contains (extname path) && !(includes path ".d.ts")

/-- The push branch's filter predicate:
`EXTENSIONS.has(extname(file.filename)) && !file.filename.includes('.d.ts')
&& file.status !== 'removed' && file.status !== 'changed'`. -/
def pushFileKeep (f : CommitFile) : Bool :=
  EXTENSIONS.contains (extname f.filename) && !(includes f.filename ".d.ts")
    && !(f.status == "removed") && !(f.status == "changed")

/-- The pull-request branch of `run`'s file selection: on success,
`lintFiles` is the filtered-and-mapped path list and `currentSha` the PR
head oid; when the GraphQL query threw (caught, warning logged), `info`
stays `undefined`, so `lintFiles` stays `undefined` and
`currentSha = GITHUB_SHA`. Returns `(lintFiles, currentSha)`. -/
def selectPR (q : Except Unit PRInfo) (githubSha : String) :
    Option (List String) × String :=
  match q with
  | .ok info =>
    (some ((info.files.filter (fun f => prFileKeep f.path)).map PRFile.path),
      info.headSha)
  | .error _ => (none, githubSha)

/-- The push branch of `run`'s file selection: on success `lintFiles` is
the filtered-and-mapped filename list; on a thrown (caught) query
`lintFiles` stays `undefined`; `currentSha = GITHUB_SHA` either way. -/
def selectPush (q : Except Unit (List CommitFile)) (githubSha : String) :
    Option (List String) × String :=
  match q with
  | .ok files =>
    (some ((files.filter pushFileKeep).map CommitFile.filename), githubSha)
  | .error _ => (none, githubSha)

/-- The file argument the engine is invoked on. Combines
`lint(lintAll ? null : lintFiles)` (a JS string is truthy iff non-empty)
with `cli.executeOnFiles(files || ['src'])` (a JS array is truthy even
when empty, so only `null`/`undefined` fall back to `['src']`). -/
def lintInput (lintAll : String) (lintFiles : Option (List String)) : List String :=
  let files : Option (List String) := if lintAll = "" then lintFiles else none
  match files with
  | none => ["src"]
  | some l => l

/-- What `run` sends after the lint step, modelled from its final
`try`/`catch`: the argument is the lint call's outcome (`Except` for a
throw) and the optional check-run id. Result: the `checks.update` payload
(conclusion, optional output) if one is sent, and the `setFailed` message
if failure is signalled. On success, the run is failed exactly when the
conclusion is `failure`; on a throw, an active check run is updated with
conclusion `failure` and no output, and `setFailed(error.message)`. -/
def finishRun (id : Option Nat) (lintResult : Except String Report) :
    Option (String × Option Output) × Option String :=
  match lintResult with
  | .ok r =>
    (id.map (fun _ => (r.conclusion, some r.output)),
      if r.conclusion = "failure" then some r.output.summary else none)
  | .error msg =>
    (id.map (fun _ => ("failure", (none : Option Output))), some msg)

/-- Test that `p` ends in the string `s` (JS `p.endsWith(s)`), computed on the
reversed character list. -/
def endsIn (p s : String) : Bool :=
  decide (p.toList.reverse.take s.toList.length = s.toList.reverse)

/-- The selection predicate as claim C3 words it: keep exactly the paths
whose extension is `.ts` or `.js`, excluding only the paths that END in
the declaration-file suffix `.d.ts`. Written from the claim, to be
compared with the code's `prFileKeep`. -/
def claimC3Keep (path : String) : Bool :=
  EXTENSIONS.contains (extname path) && !(endsIn path ".d.ts")

/-- Proposition that `needle` occurs as a contiguous substring of `hay` — the property
JavaScript's `String.prototype.includes` decides. -/
def OccursIn (needle hay : String) : Prop :=
  ∃ s t, hay.toList = s ++ needle.toList ++ t

theorem includes_iff_occurs (hay needle : String) :
    includes hay needle = true ↔ OccursIn needle hay := by
  simp only [includes, chunkAt, OccursIn, List.any_eq_true, List.mem_range,
    decide_eq_true_eq]
  constructor
  · rintro ⟨i, -, hi⟩
    refine ⟨hay.toList.take i, (hay.toList.drop i).drop needle.toList.length, ?_⟩
    conv_lhs => rw [← List.take_append_drop i hay.toList,
      ← List.take_append_drop needle.toList.length (hay.toList.drop i)]
    rw [hi, List.append_assoc]
  · rintro ⟨s, t, hst⟩
    refine ⟨s.length, ?_, ?_⟩
    · have hl : hay.toList.length = s.length + needle.toList.length + t.length := by
        rw [hst]; simp [List.length_append]; omega
      omega
    · rw [hst, List.append_assoc, List.drop_left, List.take_left]

/-- Claim C1: for every lint run, the returned Report's conclusion is
`failure` iff the engine's errorCount is greater than 0, and is `success`
otherwise, for all non-negative errorCount and warningCount. -/
theorem conclusion_failure_iff_errors (workspaceLen : Nat) (engine : EngineReport) :
    ((lint workspaceLen engine).conclusion = "failure" ↔ 0 < engine.errorCount) ∧
    ((lint workspaceLen engine).conclusion = "success" ↔ engine.errorCount = 0) := by
  rcases Nat.eq_zero_or_pos engine.errorCount with h | h
  · simp [lint, h]
  · have h' : engine.errorCount ≠ 0 := Nat.pos_iff_ne_zero.mp h
    simp [lint, h, h']

/-- Claim C2: for every lint message with severity 0, 1 or 2, the
annotation level built for it is `notice`, `warning`, `failure`
respectively, and the console-log level used in its console output line
(`consoleLevels[severity]`, interpolated twice into `consoleLine`) is
none (a hole, printing as `undefined`), `warning`, `error` respectively. -/
theorem severity_level_tables (path : String) (msg : LintMessage) :
    (msg.severity = 0 → (buildAnnot path msg).annotation_level = some "notice" ∧
      consoleLevelOf msg.severity = none) ∧
    (msg.severity = 1 → (buildAnnot path msg).annotation_level = some "warning" ∧
      consoleLevelOf msg.severity = some "warning") ∧
    (msg.severity = 2 → (buildAnnot path msg).annotation_level = some "failure" ∧
      consoleLevelOf msg.severity = some "error") := by
  refine ⟨fun h => ?_, fun h => ?_, fun h => ?_⟩ <;>
    simp [buildAnnot, annotLevelOf, consoleLevelOf, levels, consoleLevels, h]

/-- Witness for C2 at severity 2: the annotation level is `failure` and
the console level is `error`. -/
theorem severity_level_tables_wit :
    (buildAnnot "src/a.ts" ⟨3, none, 5, none, 2, some "semi", "m"⟩).annotation_level
        = some "failure" ∧
      consoleLevelOf (2 : Nat) = some "error" :=
  (severity_level_tables "src/a.ts" ⟨3, none, 5, none, 2, some "semi", "m"⟩).2.2 rfl

/-- Claim C3 is refuted at `foo.d.ts.js`: its extension is `.js` and it
does not end in `.d.ts`, so the claim's filter keeps it, but the code's
filter (`!path.includes('.d.ts')`) drops it because `.d.ts` occurs in the
middle of the path. -/
theorem prKeep_counterexample :
    claimC3Keep "foo.d.ts.js" = true ∧ prFileKeep "foo.d.ts.js" = false := by
  constructor <;> decide

/-- Claim C3 (amended): the file-selection filter keeps exactly the paths
whose extension is `.ts` or `.js` and that do not contain the substring
`.d.ts` anywhere (not merely as a final suffix); and for the
pull-request scenario with changed files `a.ts`, `b.d.ts`, `c.py` the
selected list is exactly `[a.ts]`. -/
theorem prKeep_amended (p : String) :
    (prFileKeep p = true ↔
      extname p ∈ EXTENSIONS ∧ ¬ OccursIn ".d.ts" p) ∧
    (([⟨"a.ts"⟩, ⟨"b.d.ts"⟩, ⟨"c.py"⟩] : List PRFile).filter
        (fun f => prFileKeep f.path)).map PRFile.path = ["a.ts"] := by
  constructor
  · rw [prFileKeep, Bool.and_eq_true, Bool.not_eq_true']
    rw [← Bool.not_eq_true (includes p ".d.ts"), includes_iff_occurs]
    have hc : EXTENSIONS.contains (extname p) = true ↔ extname p ∈ EXTENSIONS := by
      simp
    rw [hc]
  · decide

/-- Claim C4: the push-branch filter keeps an entry exactly when the
pull-request path rules hold of its filename and its change status is
neither `removed` nor `changed`. -/
theorem pushKeep_excludes_statuses (f : CommitFile) :
    pushFileKeep f = true ↔
      prFileKeep f.filename = true ∧ f.status ≠ "removed" ∧ f.status ≠ "changed" := by
  simp [pushFileKeep, prFileKeep, and_assoc]

/-- Claim C5: when the pull-request metadata query throws, the selected
file list stays `undefined`, the commit identifier falls back to
`GITHUB_SHA`, and (with `lint-all` unset) the lint step runs on the
default `src` directory. -/
theorem prQueryThrow_fallback (githubSha : String) :
    selectPR (Except.error ()) githubSha = (none, githubSha) ∧
    lintInput "" (selectPR (Except.error ()) githubSha).1 = ["src"] :=
  ⟨rfl, rfl⟩

/-- Claim C6: when the lint call throws while a check-run id was
obtained, the check run is updated with conclusion `failure` and no
output payload, and the run signals failure with the thrown error's
message. -/
theorem lintThrow_fails_run (id : Nat) (msg : String) :
    finishRun (some id) (Except.error msg) =
      (some ("failure", (none : Option Output)), some msg) := rfl

/-- Claim C7: an annotation's end line defaults to its start line when
`endLine` is absent, and its end column defaults to its start column
when `endColumn` is absent. -/
theorem endFields_default (path : String) (msg : LintMessage) :
    (msg.endLine = none → (buildAnnot path msg).end_line = msg.line) ∧
    (msg.endColumn = none → (buildAnnot path msg).end_column = msg.column) := by
  constructor <;> intro h <;> simp [buildAnnot, jsOrNat, h]

/-- Witness for C7: a message at line 7, column 4 with neither `endLine`
nor `endColumn` yields an annotation ending at line 7, column 4. -/
theorem endFields_default_wit :
    (buildAnnot "src/a.ts" ⟨7, none, 4, none, 1, none, "m"⟩).end_line = 7 ∧
    (buildAnnot "src/a.ts" ⟨7, none, 4, none, 1, none, "m"⟩).end_column = 4 :=
  ⟨(endFields_default "src/a.ts" ⟨7, none, 4, none, 1, none, "m"⟩).1 rfl,
    (endFields_default "src/a.ts" ⟨7, none, 4, none, 1, none, "m"⟩).2 rfl⟩

/-- Claim C8: the Report's summary is exactly
`<errorCount> error(s), <warningCount> warning(s) found`, and a run with
0 errors and 2 warnings concludes `success` with summary
`0 error(s), 2 warning(s) found`. -/
theorem summary_format (workspaceLen : Nat) (results : List LintResult) (e w : Nat) :
    (lint workspaceLen ⟨results, e, w⟩).output.summary =
      toString e ++ " error(s), " ++ toString w ++ " warning(s) found" ∧
    (lint workspaceLen ⟨results, 0, 2⟩).conclusion = "success" ∧
    (lint workspaceLen ⟨results, 0, 2⟩).output.summary =
      "0 error(s), 2 warning(s) found" := by
  refine ⟨rfl, rfl, ?_⟩
  show toString (0 : Nat) ++ " error(s), " ++ toString (2 : Nat) ++
    " warning(s) found" = _
  rfl

/-- Claim C9: an empty selected file list (every changed file filtered
out, `lint-all` unset) is passed to the linter as-is — a JS array is
truthy even when empty — while only an absent list falls back to the
default `src` directory. -/
theorem emptyList_not_default (l : List String) :
    lintInput "" (some []) = ([] : List String) ∧
    lintInput "" none = ["src"] ∧
    lintInput "" (some l) = l :=
  ⟨rfl, rfl, rfl⟩

/-- Claim C10: the `lint-all` input is tested only for string
non-emptiness, so any non-empty value (including `false`) discards the
selected list and lints the default directory; only the empty string
leaves the selected list in effect. -/
theorem lintAll_truthiness (lintAll : String) (files : List String) :
    (lintAll ≠ "" → lintInput lintAll (some files) = ["src"]) ∧
    (lintAll = "" → lintInput lintAll (some files) = files) := by
  constructor <;> intro h <;> simp [lintInput, h]

/-- Witness for C10: the value `false` forces linting of the `src`
directory even though a file list was selected. -/
theorem lintAll_truthiness_wit :
    lintInput "false" (some ["a.ts"]) = ["src"] :=
  (lintAll_truthiness "false" ["a.ts"]).1 (by decide)

end ActionEslint
